import Mathlib

/-!
Shallow embedding of `src/clean_rss.py` (Weibo hotlist RSS aggregator).

The program parses an RSS document, extracts the channel's
`lastBuildDate` and the `(title, link)` pairs of its `item` children,
and builds a new single-item RSS document.  Pure fragments of the
Python code (string handling, timestamp parsing and formatting, URL
normalisation, HTML escaping, document construction and indentation)
are translated into executable Lean definitions below; the two
side-effecting steps (reading the input path, writing the output path)
are modelled by taking the parsed input tree as an argument and
returning the output tree in `Except` (an `Except.error` means the run
aborts before the output file is written).  The wall clock read by
`datetime.now(BEIJING_TZ)` is passed in explicitly as a `now`
argument.
-/

set_option maxRecDepth 40000

/-! ## Python string primitives -/

/-- The ASCII whitespace characters recognised by Python's `str.strip`,
`str.split()` and the `\s` class of the `re` module (the inputs of
interest are ASCII, so the non-ASCII Unicode spaces are not modelled). -/
def pyIsSpace (c : Char) : Bool :=
  c == ' ' || c == '\t' || c == '\n' || c == '\r' || c == Char.ofNat 11 || c == Char.ofNat 12

/-- `str.strip()` on a character list. -/
def pyStripL (l : List Char) : List Char :=
  ((l.dropWhile pyIsSpace).reverse.dropWhile pyIsSpace).reverse

/-- Python `value.strip()`. -/
def pyStrip (s : String) : String :=
  ⟨pyStripL s.data⟩

/-- Python `"".join(s.split())`: removes every whitespace character. -/
def removeAllWs (s : String) : String :=
  ⟨s.data.filter (fun c => !pyIsSpace c)⟩

/-- Python `a or b` on strings: the empty string is falsy. -/
def pyOr (a b : String) : String :=
  if a = "" then b else a

/-! ## The element tree (`xml.etree.ElementTree`)

An element has a tag, an attribute list, the text before its first
child, a list of children and the tail text that follows its own end
tag.  `Element.text`/`tail = None` is represented by `""`: the code
only ever reads them through truthiness tests and `itertext`, which
treat `None` and `""` identically. -/

mutual
inductive XElem where
  | mk (tag : String) (attrs : List (String × String)) (text : String)
       (kids : XKids) (tailText : String)
inductive XKids where
  | nil
  | cons (head : XElem) (rest : XKids)
end

def XElem.tag : XElem → String
  | .mk t _ _ _ _ => t

def XElem.attrs : XElem → List (String × String)
  | .mk _ a _ _ _ => a

def XElem.text : XElem → String
  | .mk _ _ t _ _ => t

def XElem.kids : XElem → XKids
  | .mk _ _ _ k _ => k

def XElem.tailText : XElem → String
  | .mk _ _ _ _ t => t

def XKids.toList : XKids → List XElem
  | .nil => []
  | .cons e rest => e :: rest.toList

def listToKids : List XElem → XKids
  | [] => .nil
  | e :: rest => .cons e (listToKids rest)

/-- `elem.find(tag)` for a plain tag path: the first direct child with
that tag, if any. -/
def XElem.find (e : XElem) (t : String) : Option XElem :=
  e.kids.toList.find? (fun c => c.tag == t)

/-- `elem.findall(tag)` for a plain tag path: all direct children with
that tag, in document order. -/
def XElem.findall (e : XElem) (t : String) : List XElem :=
  e.kids.toList.filter (fun c => c.tag == t)

mutual
/-- `"".join(elem.itertext())`: the element's text followed by, for each
child, the child's own itertext and then the child's tail. -/
def itertextE : XElem → List Char
  | .mk _ _ t ks _ => t.data ++ itertextK ks
def itertextK : XKids → List Char
  | .nil => []
  | .cons e ks => itertextE e ++ e.tailText.data ++ itertextK ks
end

/-- `get_text` from the source: `""` for a missing element, otherwise
the stripped concatenation of `itertext()`. -/
def get_text (elem : Option XElem) : String :=
  match elem with
  | none => ""
  | some e => ⟨pyStripL (itertextE e)⟩

/-! ## Calendar arithmetic (the proleptic Gregorian calendar of
`datetime`)

`datetime.date` maps `(year, month, day)` to an ordinal day count with
day 1 = 0001-01-01; we use the 0-based count.  `daysBeforeYear` is
CPython's closed-form `_days_before_year`. -/

def isLeap (y : Nat) : Bool :=
  decide (y % 4 = 0 ∧ (y % 100 ≠ 0 ∨ y % 400 = 0))

def daysInYear (y : Nat) : Nat :=
  if isLeap y then 366 else 365

/-- Days in the proleptic Gregorian calendar strictly before year `y`
(counted from 0001-01-01); CPython's `_days_before_year(y)` =
`(y-1)*365 + (y-1)//4 - (y-1)//100 + (y-1)//400`. -/
def daysBeforeYear (y : Nat) : Nat :=
  (y - 1) * 365 + (y - 1) / 4 - (y - 1) / 100 + (y - 1) / 400

def daysInMonth (y : Nat) (m : Nat) : Nat :=
  match m with
  | 1 => 31
  | 2 => if isLeap y then 29 else 28
  | 3 => 31
  | 4 => 30
  | 5 => 31
  | 6 => 30
  | 7 => 31
  | 8 => 31
  | 9 => 30
  | 10 => 31
  | 11 => 30
  | 12 => 31
  | _ => 31

/-- Days in year `y` strictly before month `m` (CPython's
`_days_before_month`). -/
def daysBeforeMonth : Nat → Nat → Nat
  | _, 0 => 0
  | _, 1 => 0
  | y, m + 1 => daysBeforeMonth y m + daysInMonth y m

/-- A naive `datetime` (its six wall-clock fields). -/
structure Naive where
  year : Nat
  month : Nat
  day : Nat
  hour : Nat
  minute : Nat
  second : Nat
deriving DecidableEq, Repr

/-- 0-based ordinal of the date: days since 0001-01-01. -/
def ord0 (n : Naive) : Nat :=
  daysBeforeYear n.year + daysBeforeMonth n.year n.month + (n.day - 1)

/-- Seconds since 0001-01-01 00:00:00. -/
def toSecs (n : Naive) : Nat :=
  ord0 n * 86400 + n.hour * 3600 + n.minute * 60 + n.second

/-- Linear search for the year containing 0-based day `n`, starting at
year `y`; the fuel bounds the number of year increments (each step
consumes at least 365 days, and it is always called with enough fuel
for the days remaining). -/
def yearOfOrdFuel : Nat → Nat → Nat → Nat × Nat
  | 0, y, n => (y, n)
  | fuel + 1, y, n =>
    if n < daysInYear y then (y, n)
    else yearOfOrdFuel fuel (y + 1) (n - daysInYear y)

/-- The year containing 0-based day `n` together with the 0-based day
of that year.  A 400-year Gregorian cycle has exactly 146097 days, so
the linear search is entered at the first year of the right cycle and
finishes within 400 steps. -/
def yearOfOrd (n : Nat) : Nat × Nat :=
  yearOfOrdFuel 399 (400 * (n / 146097) + 1) (n % 146097)

/-- Linear search for the month containing 0-based day `d` of year `y`,
starting at month `m`; returns the month and the 1-based day. -/
def monthOfDoyFuel : Nat → Nat → Nat → Nat → Nat × Nat
  | 0, _, m, d => (m, d + 1)
  | fuel + 1, y, m, d =>
    if d < daysInMonth y m then (m, d + 1)
    else monthOfDoyFuel fuel y (m + 1) (d - daysInMonth y m)

/-- The naive datetime `t` seconds after 0001-01-01 00:00:00. -/
def fromSecs (t : Nat) : Naive :=
  let days := t / 86400
  let sod := t % 86400
  let yd := yearOfOrd days
  let md := monthOfDoyFuel 11 yd.1 1 yd.2
  ⟨yd.1, md.1, md.2, sod / 3600, sod % 3600 / 60, sod % 60⟩

/-- An aware `datetime`: wall-clock fields plus the attached zone's UTC
offset in seconds (east of UTC; both zones used by the program have
non-negative offsets). -/
structure AwareDT where
  dt : Naive
  utcoffset : Nat
deriving DecidableEq, Repr

/-- The UTC offset that `pytz.timezone("Asia/Shanghai")` carries before
`localize`/`normalize`: the zone's first (LMT) entry, +08:06:00 after
pytz's rounding to whole minutes.  This is the offset
`datetime.replace(tzinfo=BEIJING_TZ)` attaches. -/
def SHANGHAI_LMT_OFFSET : Nat := 29160

/-- The modern CST offset (+08:00) that `datetime.now(BEIJING_TZ)`
produces, since `datetime.now(tz)` goes through `fromutc` and picks the
correct present-day zone info. -/
def SHANGHAI_CST_OFFSET : Nat := 28800

/-- `dt.astimezone(timezone.utc)`: shift the wall clock by the attached
offset and attach offset 0.  (For instants before 0001-01-01 08:06:00
CPython raises `OverflowError`; the truncating `Nat` subtraction makes
the model total there, outside the range exercised below.) -/
def astimezoneUTC (a : AwareDT) : AwareDT :=
  ⟨fromSecs (toSecs a.dt - a.utcoffset), 0⟩

/-- The instant an aware datetime denotes, as seconds relative to
0001-01-01 00:00:00 UTC. -/
def instantSecs (a : AwareDT) : Int :=
  (toSecs a.dt : Int) - (a.utcoffset : Int)

/-! ## `strftime` -/

/-- The decimal digit character for `k < 10` (`'0'` is code 48). -/
def digitCh (k : Nat) : Char := Char.ofNat (48 + k % 10)

def pad2 (n : Nat) : String :=
  ⟨[digitCh (n / 10 % 10), digitCh (n % 10)]⟩

def pad4 (n : Nat) : String :=
  ⟨[digitCh (n / 1000 % 10), digitCh (n / 100 % 10), digitCh (n / 10 % 10), digitCh (n % 10)]⟩

/-- 0 = Monday, matching `datetime.weekday()`; 0001-01-01 was a Monday. -/
def weekdayIdx (n : Naive) : Nat :=
  ord0 n % 7

def weekdayAbbr : Nat → String
  | 0 => "Mon"
  | 1 => "Tue"
  | 2 => "Wed"
  | 3 => "Thu"
  | 4 => "Fri"
  | 5 => "Sat"
  | 6 => "Sun"
  | _ => "Mon"

def monthAbbr : Nat → String
  | 1 => "Jan"
  | 2 => "Feb"
  | 3 => "Mar"
  | 4 => "Apr"
  | 5 => "May"
  | 6 => "Jun"
  | 7 => "Jul"
  | 8 => "Aug"
  | 9 => "Sep"
  | 10 => "Oct"
  | 11 => "Nov"
  | 12 => "Dec"
  | _ => "Jan"

/-- `strftime("%a, %d %b %Y %H:%M:%S GMT")`.  (`%Y` is rendered
zero-padded to four digits; the years exercised here are all
four-digit.) -/
def strftime_rfc822 (n : Naive) : String :=
  weekdayAbbr (weekdayIdx n) ++ ", " ++ pad2 n.day ++ " " ++ monthAbbr n.month ++ " " ++
    pad4 n.year ++ " " ++ pad2 n.hour ++ ":" ++ pad2 n.minute ++ ":" ++ pad2 n.second ++ " GMT"

/-- `strftime("%Y-%m-%d %H:%M:%S")`, used in the description footer. -/
def strftime_ymd_hms (n : Naive) : String :=
  pad4 n.year ++ "-" ++ pad2 n.month ++ "-" ++ pad2 n.day ++ " " ++
    pad2 n.hour ++ ":" ++ pad2 n.minute ++ ":" ++ pad2 n.second

/-- `strftime("%Y年%m月%d日 %H:%M")`, used in the output item title. -/
def strftime_cn_title (n : Naive) : String :=
  pad4 n.year ++ "年" ++ pad2 n.month ++ "月" ++ pad2 n.day ++ "日 " ++
    pad2 n.hour ++ ":" ++ pad2 n.minute

/-- `strftime("%Y%m%d%H%M%S")`, used in the guid. -/
def strftime_guid (n : Naive) : String :=
  pad4 n.year ++ pad2 n.month ++ pad2 n.day ++ pad2 n.hour ++ pad2 n.minute ++ pad2 n.second

example : fromSecs (toSecs ⟨2023, 3, 15, 10, 0, 0⟩ - 29160) = ⟨2023, 3, 15, 1, 54, 0⟩ := by decide
example : strftime_rfc822 ⟨2023, 3, 15, 1, 54, 0⟩ = "Wed, 15 Mar 2023 01:54:00 GMT" := by decide

/-! ## `strptime`

`datetime.strptime(text, fmt)` compiles `fmt` to a regular expression
(matched case-insensitively, with any whitespace in the format matching
one-or-more whitespace characters) and requires it to consume the whole
input; the numeric directives accept one- or two-digit values in the
ranges below, and the resulting fields must then form a valid
`datetime`.  The model commits to the leftmost alternative at each
directive (the formatted inputs relevant here leave the backtracking
regex and this deterministic reading indistinguishable). -/

def toLowerCh (c : Char) : Char :=
  if 'A' ≤ c ∧ c ≤ 'Z' then Char.ofNat (c.toNat + 32) else c

/-- Match a (lowercase) literal case-insensitively, returning the rest. -/
def matchCI : List Char → List Char → Option (List Char)
  | [], cs => some cs
  | _ :: _, [] => none
  | l :: ls, c :: cs => if toLowerCh c = l then matchCI ls cs else none

/-- `\s+`: at least one whitespace character, consumed greedily. -/
def skipWsPlus : List Char → Option (List Char)
  | [] => none
  | c :: cs => if pyIsSpace c then some (cs.dropWhile pyIsSpace) else none

def matchLit (l : Char) : List Char → Option (List Char)
  | [] => none
  | c :: cs => if c = l then some cs else none

/-- The value of an ASCII decimal digit (the regex class `\\d` for the
ASCII inputs of interest). -/
def digitVal (c : Char) : Option Nat :=
  if '0' ≤ c ∧ c ≤ '9' then some (c.toNat - 48) else none

/-- `%d`: the alternation `3[01]|[12]\d|0[1-9]|[1-9]| [1-9]` (the
space-padded form never arises after the greedy `\s+`). -/
def parseDayTok : List Char → Option (Nat × List Char)
  | [] => none
  | c1 :: rest1 =>
    match digitVal c1 with
    | none => none
    | some a =>
      match rest1 with
      | [] => if 1 ≤ a then some (a, []) else none
      | c2 :: rest2 =>
        match digitVal c2 with
        | none => if 1 ≤ a then some (a, c2 :: rest2) else none
        | some b =>
          if a = 3 ∧ b ≤ 1 then some (30 + b, rest2)
          else if a = 1 ∨ a = 2 then some (10 * a + b, rest2)
          else if a = 0 ∧ 1 ≤ b then some (b, rest2)
          else if 1 ≤ a then some (a, c2 :: rest2)
          else none

/-- `%H`: the alternation `2[0-3]|[0-1]\d|\d`. -/
def parseHourTok : List Char → Option (Nat × List Char)
  | [] => none
  | c1 :: rest1 =>
    match digitVal c1 with
    | none => none
    | some a =>
      match rest1 with
      | [] => some (a, [])
      | c2 :: rest2 =>
        match digitVal c2 with
        | none => some (a, c2 :: rest2)
        | some b =>
          if a = 2 ∧ b ≤ 3 then some (20 + b, rest2)
          else if a ≤ 1 then some (10 * a + b, rest2)
          else some (a, c2 :: rest2)

/-- `%M`: the alternation `[0-5]\d|\d`. -/
def parseMinTok : List Char → Option (Nat × List Char)
  | [] => none
  | c1 :: rest1 =>
    match digitVal c1 with
    | none => none
    | some a =>
      match rest1 with
      | [] => some (a, [])
      | c2 :: rest2 =>
        match digitVal c2 with
        | none => some (a, c2 :: rest2)
        | some b =>
          if a ≤ 5 then some (10 * a + b, rest2)
          else some (a, c2 :: rest2)

/-- `%S`: the alternation `6[0-1]|[0-5]\d|\d` (a leap second 60/61 is
matched here and rejected later by the `datetime` constructor). -/
def parseSecTok : List Char → Option (Nat × List Char)
  | [] => none
  | c1 :: rest1 =>
    match digitVal c1 with
    | none => none
    | some a =>
      match rest1 with
      | [] => some (a, [])
      | c2 :: rest2 =>
        match digitVal c2 with
        | none => some (a, c2 :: rest2)
        | some b =>
          if a = 6 ∧ b ≤ 1 then some (60 + b, rest2)
          else if a ≤ 5 then some (10 * a + b, rest2)
          else some (a, c2 :: rest2)

/-- `%Y`: exactly four digits. -/
def parseYear4 : List Char → Option (Nat × List Char)
  | c1 :: c2 :: c3 :: c4 :: rest =>
    match digitVal c1, digitVal c2, digitVal c3, digitVal c4 with
    | some a, some b, some c, some d => some (a * 1000 + b * 100 + c * 10 + d, rest)
    | _, _, _, _ => none
  | _ => none

/-- `%a`: any of the seven abbreviated weekday names, case-insensitive;
the parsed weekday does not influence the resulting `datetime`. -/
def parseWeekdayTok (cs : List Char) : Option (List Char) :=
  List.findSome? (fun w => matchCI w cs)
    [['m','o','n'], ['t','u','e'], ['w','e','d'], ['t','h','u'],
     ['f','r','i'], ['s','a','t'], ['s','u','n']]

/-- `%b`: any of the twelve abbreviated month names, case-insensitive. -/
def parseMonthTok (cs : List Char) : Option (Nat × List Char) :=
  List.findSome? (fun p => (matchCI p.2 cs).map (fun r => (p.1, r)))
    [(1, ['j','a','n']), (2, ['f','e','b']), (3, ['m','a','r']), (4, ['a','p','r']),
     (5, ['m','a','y']), (6, ['j','u','n']), (7, ['j','u','l']), (8, ['a','u','g']),
     (9, ['s','e','p']), (10, ['o','c','t']), (11, ['n','o','v']), (12, ['d','e','c'])]

/-- The field checks of the `datetime` constructor (`MINYEAR = 1`,
`MAXYEAR = 9999`); the month and the 0–61 second range are already
narrowed by the directives' regexes. -/
def datetimeOk (n : Naive) : Bool :=
  decide (1 ≤ n.year ∧ n.year ≤ 9999 ∧ 1 ≤ n.month ∧ n.month ≤ 12 ∧
    1 ≤ n.day ∧ n.day ≤ daysInMonth n.year n.month ∧
    n.hour ≤ 23 ∧ n.minute ≤ 59 ∧ n.second ≤ 59)

/-- `Option` sequencing (kept out-of-line). -/
def obind (o : Option α) (f : α → Option β) : Option β :=
  match o with
  | none => none
  | some a => f a

/-- The shared prefix `%a, %d %b %Y %H:%M:%S` of the two formats. -/
def strptimeFields (cs : List Char) : Option (Naive × List Char) :=
  obind (parseWeekdayTok cs) fun r0 =>
  obind (matchLit ',' r0) fun r1 =>
  obind (skipWsPlus r1) fun r2 =>
  obind (parseDayTok r2) fun dd =>
  obind (skipWsPlus dd.2) fun r3 =>
  obind (parseMonthTok r3) fun mm =>
  obind (skipWsPlus mm.2) fun r4 =>
  obind (parseYear4 r4) fun yy =>
  obind (skipWsPlus yy.2) fun r5 =>
  obind (parseHourTok r5) fun hh =>
  obind (matchLit ':' hh.2) fun r6 =>
  obind (parseMinTok r6) fun mi =>
  obind (matchLit ':' mi.2) fun r7 =>
  obind (parseSecTok r7) fun ss =>
  some (⟨yy.1, mm.1, dd.1, hh.1, mi.1, ss.1⟩, ss.2)

/-- `datetime.strptime(text, "%a, %d %b %Y %H:%M:%S GMT")` as an
`Option` (any `ValueError` becomes `none`). -/
def strptime_fmt1 (cs : List Char) : Option Naive :=
  match strptimeFields cs with
  | none => none
  | some (n, r) =>
    match skipWsPlus r with
    | none => none
    | some r =>
      match matchCI ['g', 'm', 't'] r with
      | none => none
      | some r => if r = [] ∧ datetimeOk n then some n else none

/-- `datetime.strptime(text, "%a, %d %b %Y %H:%M:%S")` as an `Option`. -/
def strptime_fmt2 (cs : List Char) : Option Naive :=
  match strptimeFields cs with
  | none => none
  | some (n, r) => if r = [] ∧ datetimeOk n then some n else none

/-- `parse_last_build_date` from the source.  `value` is the (already
stripped) text handed over by `get_text`, with Python's `None`
collapsed onto `""` (both are falsy); `now` is the value
`datetime.now(BEIJING_TZ)` would produce, passed in explicitly.  On a
successful parse the naive result gets `BEIJING_TZ` attached via
`replace`, which carries pytz's LMT offset `SHANGHAI_LMT_OFFSET`. -/
def parse_last_build_date (value : String) (now : AwareDT) : AwareDT × AwareDT :=
  if value = "" then (now, astimezoneUTC now)
  else
    let text := pyStrip value
    match strptime_fmt1 text.data with
    | some naive_dt =>
      let bj_dt : AwareDT := ⟨naive_dt, SHANGHAI_LMT_OFFSET⟩
      (bj_dt, astimezoneUTC bj_dt)
    | none =>
      match strptime_fmt2 text.data with
      | some naive_dt =>
        let bj_dt : AwareDT := ⟨naive_dt, SHANGHAI_LMT_OFFSET⟩
        (bj_dt, astimezoneUTC bj_dt)
      | none => (now, astimezoneUTC now)

example :
    strptime_fmt1 ("Wed, 15 Mar 2023 10:00:00 GMT").data = some ⟨2023, 3, 15, 10, 0, 0⟩ := by
  decide
example : strptime_fmt1 ("Wed, 15 Mar 2023 10:00:00").data = none := by decide
example : strptime_fmt2 ("Wed, 15 Mar 2023 10:00:00").data = some ⟨2023, 3, 15, 10, 0, 0⟩ := by
  decide
example : strptime_fmt2 ("not a date").data = none := by decide
example : strptime_fmt1 ("Fri, 30 Feb 2023 10:00:00 GMT").data = none := by decide
example : strptime_fmt1 ("wed, 5 mar 2023 1:2:3 gmt").data = some ⟨2023, 3, 5, 1, 2, 3⟩ := by
  decide

/-! ## URL handling (`urllib.parse`) -/

/-- UTF-8 encoding of one character. -/
def utf8Bytes (c : Char) : List Nat :=
  let n := c.toNat
  if n < 0x80 then [n]
  else if n < 0x800 then [0xC0 + n / 64, 0x80 + n % 64]
  else if n < 0x10000 then [0xE0 + n / 4096, 0x80 + n / 64 % 64, 0x80 + n % 64]
  else [0xF0 + n / 262144, 0x80 + n / 4096 % 64, 0x80 + n / 64 % 64, 0x80 + n % 64]

/-- The uppercase hex digit for `k < 16` (`'A'` is code 65). -/
def hexDigitUpper (k : Nat) : Char :=
  if k % 16 < 10 then Char.ofNat (48 + k % 16) else Char.ofNat (55 + k % 16)

/-- The characters `urllib.parse.quote` never encodes
(`_ALWAYS_SAFE`): ASCII letters, digits, and `_.-~`. -/
def quoteAlwaysSafe (c : Char) : Bool :=
  ('A' ≤ c && c ≤ 'Z') || ('a' ≤ c && c ≤ 'z') || ('0' ≤ c && c ≤ '9') ||
    c == '_' || c == '.' || c == '-' || c == '~'

/-- `urllib.parse.quote(s, safe="")`: every non-always-safe character
is encoded as the uppercase-hex percent escapes of its UTF-8 bytes. -/
def pyQuote (s : String) : String :=
  ⟨(s.data.map (fun c =>
      if quoteAlwaysSafe c then [c]
      else ((utf8Bytes c).map (fun b => ['%', hexDigitUpper (b / 16), hexDigitUpper (b % 16)])).flatten)).flatten⟩

/-- The value of a hex digit, either case (`string.hexdigits`). -/
def hexVal (c : Char) : Option Nat :=
  if '0' ≤ c ∧ c ≤ '9' then some (c.toNat - 48)
  else if 'a' ≤ c ∧ c ≤ 'f' then some (c.toNat - 87)
  else if 'A' ≤ c ∧ c ≤ 'F' then some (c.toNat - 55)
  else none

def isContByte (b : Nat) : Bool :=
  0x80 ≤ b && b ≤ 0xBF

def replacementChar : Char := Char.ofNat 0xFFFD

/-- One step of the UTF-8 decoder: the character produced by the bytes
at the head (U+FFFD for a maximal invalid prefix) and the remaining
bytes.  Always consumes at least one byte. -/
def utf8Step (b : Nat) (rest : List Nat) : Char × List Nat :=
  if b < 0x80 then (Char.ofNat b, rest)
  else if 0xC2 ≤ b ∧ b ≤ 0xDF then
    match rest with
    | b2 :: rest2 =>
      if isContByte b2 then (Char.ofNat ((b - 0xC0) * 64 + (b2 - 0x80)), rest2)
      else (replacementChar, rest)
    | [] => (replacementChar, [])
  else if 0xE0 ≤ b ∧ b ≤ 0xEF then
    match rest with
    | b2 :: rest2 =>
      if (b = 0xE0 && 0xA0 ≤ b2 && b2 ≤ 0xBF) ||
          (0xE1 ≤ b && b ≤ 0xEC && isContByte b2) ||
          (b = 0xED && 0x80 ≤ b2 && b2 ≤ 0x9F) ||
          (0xEE ≤ b && isContByte b2) then
        match rest2 with
        | b3 :: rest3 =>
          if isContByte b3 then
            (Char.ofNat ((b - 0xE0) * 4096 + (b2 - 0x80) * 64 + (b3 - 0x80)), rest3)
          else (replacementChar, rest2)
        | [] => (replacementChar, [])
      else (replacementChar, rest)
    | [] => (replacementChar, [])
  else if 0xF0 ≤ b ∧ b ≤ 0xF4 then
    match rest with
    | b2 :: rest2 =>
      if (b = 0xF0 && 0x90 ≤ b2 && b2 ≤ 0xBF) ||
          (0xF1 ≤ b && b ≤ 0xF3 && isContByte b2) ||
          (b = 0xF4 && 0x80 ≤ b2 && b2 ≤ 0x8F) then
        match rest2 with
        | b3 :: rest3 =>
          if isContByte b3 then
            match rest3 with
            | b4 :: rest4 =>
              if isContByte b4 then
                (Char.ofNat ((b - 0xF0) * 262144 + (b2 - 0x80) * 4096 +
                  (b3 - 0x80) * 64 + (b4 - 0x80)), rest4)
              else (replacementChar, rest3)
            | [] => (replacementChar, [])
          else (replacementChar, rest2)
        | [] => (replacementChar, [])
      else (replacementChar, rest)
    | [] => (replacementChar, [])
  else (replacementChar, rest)

/-- Fuel-based driver of `utf8Step`; each step consumes at least one
byte, so fuel equal to the byte count never runs out. -/
def utf8DecodeFuel : Nat → List Nat → List Char
  | 0, _ => []
  | _, [] => []
  | fuel + 1, b :: rest =>
    let s := utf8Step b rest
    s.1 :: utf8DecodeFuel fuel s.2

/-- UTF-8 decoding with U+FFFD replacement, as
`bytes.decode("utf-8", errors="replace")` does (each maximal invalid
subsequence is replaced by one U+FFFD). -/
def utf8DecodeRepl (l : List Nat) : List Char :=
  utf8DecodeFuel l.length l

/-- The percent-decoding scan of `urllib.parse.unquote`: consecutive
`%XX` escapes accumulate into a byte run that is UTF-8-decoded as one
unit; a `%` not followed by two hex digits stays literal. -/
def unquoteScan : List Char → List Nat → List Char
  | [], pend => utf8DecodeRepl pend
  | '%' :: c1 :: c2 :: rest, pend =>
    match hexVal c1, hexVal c2 with
    | some a, some b => unquoteScan rest (pend ++ [16 * a + b])
    | _, _ => utf8DecodeRepl pend ++ '%' :: unquoteScan (c1 :: c2 :: rest) []
  | '%' :: rest, pend => utf8DecodeRepl pend ++ '%' :: unquoteScan rest []
  | c :: rest, pend => utf8DecodeRepl pend ++ c :: unquoteScan rest []

/-- `urllib.parse.unquote_plus`: `+` becomes a space, then percent
escapes are decoded (UTF-8, `errors="replace"`). -/
def unquote_plus (l : List Char) : String :=
  ⟨unquoteScan (l.map (fun c => if c = '+' then ' ' else c)) []⟩

def splitOnChar (sep : Char) : List Char → List (List Char)
  | [] => [[]]
  | c :: rest =>
    let r := splitOnChar sep rest
    if c = sep then [] :: r
    else match r with
      | [] => [[c]]
      | g :: gs => (c :: g) :: gs

/-- Split at the first occurrence of `sep` (Python `split(sep, 1)` when
it has two parts). -/
def splitFirst (sep : Char) : List Char → Option (List Char × List Char)
  | [] => none
  | c :: rest =>
    if c = sep then some ([], rest)
    else match splitFirst sep rest with
      | none => none
      | some (a, b) => some (c :: a, b)

/-- `urllib.parse.parse_qsl(qs)` with the default arguments: split the
query on `&`, drop empty chunks, drop chunks without `=`, drop pairs
with an empty value (`keep_blank_values=False`), and percent-decode
names and values with `unquote_plus`. -/
def parse_qsl (qs : List Char) : List (String × String) :=
  (splitOnChar '&' qs).filterMap (fun chunk =>
    if chunk = [] then none
    else match splitFirst '=' chunk with
      | none => none
      | some (n, v) => if v = [] then none else some (unquote_plus n, unquote_plus v))

/-- The `query` component of `urlparse(url)`: everything after the
first `?` of the part before the first `#`. -/
def urlQuery (url : List Char) : List Char :=
  match splitFirst '#' url with
  | none =>
    match splitFirst '?' url with
    | none => []
    | some (_, q) => q
  | some (pre, _) =>
    match splitFirst '?' pre with
    | none => []
    | some (_, q) => q

/-- `query.get("q", [""])[0]`: the first value whose (decoded) name is
`"q"`, defaulting to `""`. -/
def firstQValue (pairs : List (String × String)) : String :=
  match pairs.find? (fun p => p.1 == "q") with
  | some p => p.2
  | none => ""

/-- `normalize_weibo_link` from the source. -/
def normalize_weibo_link (title : String) (raw_link : String) : String :=
  let cleaned_link := removeAllWs raw_link
  let query := parse_qsl (urlQuery cleaned_link.data)
  let keyword := if query = [] then "" else pyStrip (firstQValue query)
  let keyword := if keyword = "" then pyStrip title else keyword
  let encoded_keyword := pyQuote keyword
  "https://m.weibo.cn/search?containerid=100103type%3D1%26q%3D" ++ encoded_keyword

example :
    normalize_weibo_link "ignored" "https://example.com/?q=keywordA" =
      "https://m.weibo.cn/search?containerid=100103type%3D1%26q%3DkeywordA" := by
  decide

example :
    normalize_weibo_link "fallback title" "https://example.com/" =
      "https://m.weibo.cn/search?containerid=100103type%3D1%26q%3Dfallback%20title" := by
  decide

/-! ## HTML escaping and the description body -/

/-- `str.replace(old, new)` for a single-character `old`. -/
def pyReplaceChar (old : Char) (new : List Char) (l : List Char) : List Char :=
  (l.map (fun c => if c = old then new else [c])).flatten

/-- The apostrophe character (U+0027). -/
def aposChar : Char := Char.ofNat 39

/-- `html.escape(s, quote=True)`: the five sequential replacements, `&`
first so that later entities are not re-escaped. -/
def html_escape (s : String) : String :=
  ⟨pyReplaceChar aposChar ("&#x27;").data
    (pyReplaceChar '"' ("&quot;").data
      (pyReplaceChar '>' ("&gt;").data
        (pyReplaceChar '<' ("&lt;").data
          (pyReplaceChar '&' ("&amp;").data s.data))))⟩

/-- The per-character view of `html_escape` (proved equal to it below). -/
def escChar (c : Char) : List Char :=
  if c = '&' then ("&amp;").data
  else if c = '<' then ("&lt;").data
  else if c = '>' then ("&gt;").data
  else if c = '"' then ("&quot;").data
  else if c = aposChar then ("&#x27;").data
  else [c]

/-- "Contains no unescaped markup": every position either holds a
character that is none of `<`, `>`, `"`, `&`, or begins one of the
five entities that `html.escape` introduces. -/
inductive EscapedSafe : List Char → Prop where
  | nil : EscapedSafe []
  | amp {r : List Char} : EscapedSafe r → EscapedSafe ('&' :: 'a' :: 'm' :: 'p' :: ';' :: r)
  | lt {r : List Char} : EscapedSafe r → EscapedSafe ('&' :: 'l' :: 't' :: ';' :: r)
  | gt {r : List Char} : EscapedSafe r → EscapedSafe ('&' :: 'g' :: 't' :: ';' :: r)
  | quot {r : List Char} : EscapedSafe r → EscapedSafe ('&' :: 'q' :: 'u' :: 'o' :: 't' :: ';' :: r)
  | x27 {r : List Char} : EscapedSafe r → EscapedSafe ('&' :: '#' :: 'x' :: '2' :: '7' :: ';' :: r)
  | plain {c : Char} {r : List Char} : c ≠ '<' → c ≠ '>' → c ≠ '"' → c ≠ '&' →
      EscapedSafe r → EscapedSafe (c :: r)

/-- The `<li>` line rendered for one `(title, link)` entry. -/
def descLiLine (p : String × String) : String :=
  "<li><a href=\"" ++ html_escape (normalize_weibo_link p.1 p.2) ++ "\" target=\"_blank\">" ++
    html_escape p.1 ++ "</a></li>"

/-- `build_description` from the source: heading, one `<li>` per entry
(with the normalised link and the escaped title), closing tag, and a
footer with the capture time. -/
def build_description (items : List (String × String)) (capture_time : AwareDT) : String :=
  let lines := ["<h2>微博热搜榜</h2>", "<ol>"]
  let lines := lines ++ items.map descLiLine
  let lines := lines ++ ["</ol>",
    "<p><small>采集时间: " ++ strftime_ymd_hms capture_time.dt ++ "</small></p>"]
  String.intercalate "\n" lines

example : html_escape "a<b>&\"c" = "a&lt;b&gt;&amp;&quot;c" := by decide

/-! ## Indentation and document assembly -/

/-- Python's truthiness-and-blank test `not s or not s.strip()` (with
`None` represented by `""`). -/
def blankText (s : String) : Bool :=
  pyStrip s == ""

/-- `"\n" + level * "  "`. -/
def indentStr (level : Nat) : String :=
  "\n" ++ String.join (List.replicate level "  ")

def mapKids (f : XElem → XElem) : XKids → XKids
  | .nil => .nil
  | .cons e rest => .cons (f e) (mapKids f rest)

def setTailIfBlank (i : String) : XElem → XElem
  | .mk tag attrs text kids tl => if blankText tl then .mk tag attrs text kids i else .mk tag attrs text kids tl

/-- `elem[-1].tail = i` when blank: rewrite the tail of the last child. -/
def setLastTail (i : String) : XKids → XKids
  | .nil => .nil
  | .cons e .nil => .cons (setTailIfBlank i e) .nil
  | .cons e rest => .cons e (setLastTail i rest)

/-- `indent(elem, level)` from the source, as a pure rewrite.  The fuel
bounds the recursion depth; the trees this is applied to below have
depth at most 4, so fuel 8 behaves as the unbounded original. -/
def indentX : Nat → Nat → XElem → XElem
  | 0, _, e => e
  | fuel + 1, level, .mk tag attrs text kids tl =>
    let i := indentStr level
    match kids with
    | .nil =>
      .mk tag attrs text .nil (if level ≠ 0 ∧ blankText tl then i else tl)
    | .cons k ks =>
      let text' := if blankText text then i ++ "  " else text
      let kids' := setLastTail i (mapKids (indentX fuel (level + 1)) (.cons k ks))
      .mk tag attrs text' kids' (if level ≠ 0 ∧ blankText tl then i else tl)

/-- A childless element with no attributes (an `ET.SubElement` whose
`text` is then assigned). -/
def mkLeaf (tag : String) (txt : String) : XElem :=
  .mk tag [] txt .nil ""

/-- The extraction the aggregation loop applies to one `item` child:
missing or blank `title`/`link` fall back to the placeholders. -/
def extractEntry (item : XElem) : String × String :=
  (pyOr (get_text (item.find "title")) "无标题",
   pyOr (get_text (item.find "link")) "#")

/-- `aggregate_rss` from the source, with the input document already
parsed (`root`) and the clock passed as `now`.  `Except.error` models
the raised `ValueError`, which aborts the run before anything is
written to the output path; `Except.ok` carries the document tree that
is serialised to the output path. -/
def aggregate_rss (now : AwareDT) (root : XElem) : Except String XElem :=
  match root.find "channel" with
  | none => Except.error "Missing channel in RSS input."
  | some channel =>
    let last_build_text := get_text (channel.find "lastBuildDate")
    let bjgmt := parse_last_build_date last_build_text now
    let capture_time_bj := bjgmt.1
    let capture_time_gmt := bjgmt.2
    let items := (channel.findall "item").map extractEntry
    let agg_item : XElem := .mk "item" [] "" (listToKids [
      mkLeaf "title" ("微博热搜 - " ++ strftime_cn_title capture_time_bj.dt),
      mkLeaf "link" "https://tophub.today/n/KqndgxeLl9",
      mkLeaf "description" (build_description items capture_time_bj),
      mkLeaf "pubDate" (strftime_rfc822 capture_time_gmt.dt),
      XElem.mk "guid" [("isPermaLink", "false")]
        ("weibo-hot-" ++ strftime_guid capture_time_bj.dt) .nil ""]) ""
    let out_channel : XElem := .mk "channel" [] "" (listToKids [
      mkLeaf "title" "微博热搜榜 - 聚合版",
      mkLeaf "link" "https://tophub.today/n/KqndgxeLl9",
      mkLeaf "description" "每个条目包含一个时刻的所有热搜",
      mkLeaf "language" "zh-cn",
      mkLeaf "lastBuildDate" (strftime_rfc822 capture_time_gmt.dt),
      agg_item]) ""
    let rss : XElem := .mk "rss"
      [("version", "2.0"), ("xmlns:atom", "http://www.w3.org/2005/Atom")] ""
      (listToKids [out_channel]) ""
    Except.ok (indentX 8 0 rss)

/-- The number of `item` children of the output document's `channel`. -/
def itemCount (doc : XElem) : Nat :=
  match doc.find "channel" with
  | some c => (c.findall "item").length
  | none => 0

/-- The text of `channel/item/pubDate` in a document. -/
def pubDateText (doc : XElem) : Option String :=
  obind (doc.find "channel") fun c =>
  obind (c.find "item") fun it =>
  (it.find "pubDate").map XElem.text

/-- The Link Normalizer exactly as the spec's words describe it
(§4.2): strip all whitespace (including embedded newlines) from the
link, parse its query string, take the (trimmed) first value of the
query parameter `q` as the search keyword, fall back to the
whitespace-trimmed title when that value is absent or empty,
percent-encode the keyword with no characters treated as safe, and
substitute it into the fixed mobile search URL template.  Compared
with the code's `normalize_weibo_link` below. -/
def normalize_link_spec (title raw_link : String) : String :=
  let cleaned := removeAllWs raw_link
  let qkw := pyStrip (firstQValue (parse_qsl (urlQuery cleaned.data)))
  let keyword := if qkw = "" then pyStrip title else qkw
  "https://m.weibo.cn/search?containerid=100103type%3D1%26q%3D" ++ pyQuote keyword

/-! ## Concrete fixtures used by witness statements -/

/-- A sample wall clock for the `now` argument (what
`datetime.now(BEIJING_TZ)` could return, with the CST offset). -/
def sampleNow : AwareDT := ⟨⟨2024, 1, 2, 3, 4, 5⟩, SHANGHAI_CST_OFFSET⟩

/-- The `channel/item/pubDate` text of a successful run. -/
def okPubDate (r : Except String XElem) : Option String :=
  match r with
  | .ok d => pubDateText d
  | .error _ => none

/-- An input document whose channel carries only the `lastBuildDate`
of the spec's timestamp example and no `item` entries. -/
def inputDocNoItems : XElem :=
  .mk "rss" [] "" (listToKids [
    .mk "channel" [] "" (listToKids [
      mkLeaf "lastBuildDate" "Wed, 15 Mar 2023 10:00:00 GMT"]) ""]) ""

/-- An input document with three `item` entries (one complete, one
with only a title, one empty). -/
def inputDocThreeItems : XElem :=
  .mk "rss" [] "" (listToKids [
    .mk "channel" [] "" (listToKids [
      .mk "item" [] "" (listToKids [
        mkLeaf "title" "话题一", mkLeaf "link" "https://s.weibo.com/weibo?q=%23话题一%23"]) "",
      .mk "item" [] "" (listToKids [mkLeaf "title" "话题二"]) "",
      .mk "item" [] "" .nil ""]) ""]) ""

/-- A document whose root has children but no `channel`. -/
def rootNoChannel : XElem :=
  .mk "rss" [] "" (listToKids [mkLeaf "title" "no channel here"]) ""

/-- An `item` entry with neither `title` nor `link` child. -/
def bareItem : XElem := .mk "item" [] "" .nil ""

/-- An `item` entry whose `title` has whitespace-only text and whose
`link` holds whitespace only across a nested child element. -/
def blankFieldsItem : XElem :=
  .mk "item" [] "" (listToKids [
    .mk "title" [] " \n\t " .nil "",
    .mk "link" [] " " (listToKids [.mk "b" [] "\t" .nil " "]) ""]) ""

/-! # Theorems

## Calendar lemmas: `fromSecs` is a right inverse of `toSecs` -/

theorem dby_succ (y : Nat) (h : 1 ≤ y) :
    daysBeforeYear (y + 1) = daysBeforeYear y + daysInYear y := by
  simp only [daysBeforeYear, daysInYear, isLeap, decide_eq_true_eq]
  by_cases hL : y % 4 = 0 ∧ (y % 100 ≠ 0 ∨ y % 400 = 0)
  · rw [if_pos hL]; omega
  · rw [if_neg hL]
    rcases Nat.lt_or_ge 0 (y % 4) with h4 | h4
    · omega
    · rcases Nat.lt_or_ge 0 (y % 400) with h400 | h400
      · omega
      · omega

theorem daysInYear_pos (y : Nat) : 365 ≤ daysInYear y := by
  unfold daysInYear; split <;> omega

theorem yearOfOrdFuel_spec (fuel : Nat) :
    ∀ y n, 1 ≤ y → n + daysBeforeYear y < daysBeforeYear (y + fuel + 1) →
      daysBeforeYear (yearOfOrdFuel fuel y n).1 + (yearOfOrdFuel fuel y n).2 =
          daysBeforeYear y + n ∧
        (yearOfOrdFuel fuel y n).2 < daysInYear (yearOfOrdFuel fuel y n).1 ∧
        1 ≤ (yearOfOrdFuel fuel y n).1 := by
  induction fuel with
  | zero =>
    intro y n hy hn
    rw [dby_succ y hy] at hn
    simpa [yearOfOrdFuel] using ⟨by omega, hy⟩
  | succ fuel ih =>
    intro y n hy hn
    by_cases hlt : n < daysInYear y
    · simp [yearOfOrdFuel, hlt, hy]
    · rw [show y + (fuel + 1) + 1 = (y + 1) + fuel + 1 by ring] at hn
      have hy1 : 1 ≤ y + 1 := by omega
      have h2 : (n - daysInYear y) + daysBeforeYear (y + 1) < daysBeforeYear (y + 1 + fuel + 1) := by
        rw [dby_succ y hy]; omega
      have := ih (y + 1) (n - daysInYear y) hy1 h2
      simp only [yearOfOrdFuel, if_neg hlt]
      refine ⟨?_, this.2.1, this.2.2⟩
      rw [this.1, dby_succ y hy]
      omega

theorem dby_cycle_start (q : Nat) : daysBeforeYear (400 * q + 1) = 146097 * q := by
  simp only [daysBeforeYear]
  omega

theorem yearOfOrd_spec (n : Nat) :
    daysBeforeYear (yearOfOrd n).1 + (yearOfOrd n).2 = n ∧
      (yearOfOrd n).2 < daysInYear (yearOfOrd n).1 ∧ 1 ≤ (yearOfOrd n).1 := by
  have hq : n % 146097 < 146097 := Nat.mod_lt _ (by omega)
  have h1 : 1 ≤ 400 * (n / 146097) + 1 := by omega
  have hbound :
      n % 146097 + daysBeforeYear (400 * (n / 146097) + 1) <
        daysBeforeYear (400 * (n / 146097) + 1 + 399 + 1) := by
    have e1 := dby_cycle_start (n / 146097)
    have e2 := dby_cycle_start (n / 146097 + 1)
    rw [show 400 * (n / 146097) + 1 + 399 + 1 = 400 * (n / 146097 + 1) + 1 by ring, e1, e2]
    omega
  have h := yearOfOrdFuel_spec 399 (400 * (n / 146097) + 1) (n % 146097) h1 hbound
  unfold yearOfOrd
  refine ⟨?_, h.2.1, h.2.2⟩
  rw [h.1, dby_cycle_start]
  omega

theorem dbm_succ (y m : Nat) (h : 1 ≤ m) :
    daysBeforeMonth y (m + 1) = daysBeforeMonth y m + daysInMonth y m := by
  match m, h with
  | m + 1, _ => rfl

theorem dbm_13 (y : Nat) : daysBeforeMonth y 13 = daysInYear y := by
  by_cases hL : isLeap y = true <;>
    simp [daysBeforeMonth, daysInMonth, daysInYear, hL]

theorem monthOfDoyFuel_spec (fuel : Nat) :
    ∀ m d y, 1 ≤ m → m ≤ 12 → 12 ≤ m + fuel →
      daysBeforeMonth y m + d < daysInYear y →
      daysBeforeMonth y (monthOfDoyFuel fuel y m d).1 + ((monthOfDoyFuel fuel y m d).2 - 1) =
          daysBeforeMonth y m + d ∧
        1 ≤ (monthOfDoyFuel fuel y m d).2 ∧
        (monthOfDoyFuel fuel y m d).2 ≤ daysInMonth y (monthOfDoyFuel fuel y m d).1 ∧
        1 ≤ (monthOfDoyFuel fuel y m d).1 ∧ (monthOfDoyFuel fuel y m d).1 ≤ 12 := by
  induction fuel with
  | zero =>
    intro m d y h1 h12 hf hd
    have hm : m = 12 := by omega
    subst hm
    have : daysBeforeMonth y 13 = daysBeforeMonth y 12 + daysInMonth y 12 := dbm_succ y 12 (by omega)
    rw [dbm_13] at this
    simp only [monthOfDoyFuel]
    omega
  | succ fuel ih =>
    intro m d y h1 h12 hf hd
    by_cases hlt : d < daysInMonth y m
    · simp only [monthOfDoyFuel, if_pos hlt]
      omega
    · have hm12 : m ≠ 12 := by
        intro hm
        subst hm
        have : daysBeforeMonth y 13 = daysBeforeMonth y 12 + daysInMonth y 12 :=
          dbm_succ y 12 (by omega)
        rw [dbm_13] at this
        omega
      have hnext := dbm_succ y m h1
      have := ih (m + 1) (d - daysInMonth y m) y (by omega) (by omega) (by omega)
        (by rw [hnext]; omega)
      simp only [monthOfDoyFuel, if_neg hlt]
      refine ⟨?_, this.2.1, this.2.2.1, ?_, this.2.2.2.2⟩
      · rw [this.1, hnext]; omega
      · omega

theorem toSecs_fromSecs (t : Nat) : toSecs (fromSecs t) = t := by
  have hy := yearOfOrd_spec (t / 86400)
  have hm := monthOfDoyFuel_spec 11 1 (yearOfOrd (t / 86400)).2 (yearOfOrd (t / 86400)).1
    (by omega) (by omega) (by omega)
    (by simpa [daysBeforeMonth] using hy.2.1)
  simp only [daysBeforeMonth] at hm
  have hsod : t % 86400 < 86400 := Nat.mod_lt _ (by omega)
  simp only [fromSecs, toSecs, ord0]
  omega

theorem instantSecs_astimezoneUTC (a : AwareDT) (h : a.utcoffset ≤ toSecs a.dt) :
    instantSecs (astimezoneUTC a) = instantSecs a := by
  simp only [instantSecs, astimezoneUTC, toSecs_fromSecs]
  omega

/-! ## C9: the two returned datetimes agree -/

/-- C9: for every input value (parsed or fallen back to `now`), the
second component returned by `parse_last_build_date` is exactly the
first component converted to universal time, on both the parsed branch
and the fallback branch; and (whenever the subtraction does not
underflow the calendar, i.e. the instant is not before 0001-01-01 UTC)
the two components denote the same instant. -/
theorem parse_last_build_date_consistent (value : String) (now : AwareDT) :
    (parse_last_build_date value now).2 = astimezoneUTC (parse_last_build_date value now).1 ∧
      ((parse_last_build_date value now).1.utcoffset ≤ toSecs (parse_last_build_date value now).1.dt →
        instantSecs (parse_last_build_date value now).2 =
          instantSecs (parse_last_build_date value now).1) := by
  have h1 : (parse_last_build_date value now).2 = astimezoneUTC (parse_last_build_date value now).1 := by
    unfold parse_last_build_date
    by_cases hv : value = ""
    · simp [hv]
    · simp only [if_neg hv]
      cases hf1 : strptime_fmt1 (pyStrip value).data with
      | some n => simp [hf1]
      | none =>
        cases hf2 : strptime_fmt2 (pyStrip value).data with
        | some n => simp [hf1, hf2]
        | none => simp [hf1, hf2]
  exact ⟨h1, fun h => by rw [h1]; exact instantSecs_astimezoneUTC _ h⟩

/-- Witness for C9 at the spec's concrete timestamp. -/
theorem parse_last_build_date_consistent_witness :
    (parse_last_build_date "Wed, 15 Mar 2023 10:00:00 GMT" sampleNow).2 =
        astimezoneUTC (parse_last_build_date "Wed, 15 Mar 2023 10:00:00 GMT" sampleNow).1 ∧
      instantSecs (parse_last_build_date "Wed, 15 Mar 2023 10:00:00 GMT" sampleNow).2 =
        instantSecs (parse_last_build_date "Wed, 15 Mar 2023 10:00:00 GMT" sampleNow).1 := by
  have h := parse_last_build_date_consistent "Wed, 15 Mar 2023 10:00:00 GMT" sampleNow
  exact ⟨h.1, h.2 (by decide)⟩

/-! ## C4: unparseable or absent input falls back to `now` -/

/-- C4: whenever the input string is empty (Python-falsy, covering the
absent case) or, once stripped, is accepted by neither of the two
recognised formats, `parse_last_build_date` returns the current
instant paired with its universal-time conversion; the function is
total, so no error is raised on this path. -/
theorem parse_last_build_date_fallback (value : String) (now : AwareDT)
    (h : value = "" ∨ (strptime_fmt1 (pyStrip value).data = none ∧
      strptime_fmt2 (pyStrip value).data = none)) :
    parse_last_build_date value now = (now, astimezoneUTC now) := by
  rcases h with h | ⟨h1, h2⟩
  · subst h
    simp [parse_last_build_date]
  · by_cases hv : value = ""
    · subst hv; simp [parse_last_build_date]
    · simp [parse_last_build_date, hv, h1, h2]

/-- Witness for C4 at a concrete unparseable input. -/
theorem parse_last_build_date_fallback_witness :
    parse_last_build_date "not a date" sampleNow = (sampleNow, astimezoneUTC sampleNow) :=
  parse_last_build_date_fallback "not a date" sampleNow (Or.inr ⟨by rfl, by rfl⟩)

/-! ## C7: a missing `channel` aborts the run before any output -/

/-- C7: when the input root has no `channel` child, `aggregate_rss`
raises `ValueError("Missing channel in RSS input.")`; in the model the
run ends in `Except.error` with that message, and no output document
exists (the `Except.ok` payload is the only thing ever serialised, and
it is produced only after all extraction and construction steps have
run to completion). -/
theorem aggregate_rss_missing_channel (now : AwareDT) (root : XElem)
    (h : root.find "channel" = none) :
    aggregate_rss now root = Except.error "Missing channel in RSS input." := by
  unfold aggregate_rss
  rw [h]

/-- Witness for C7 on a document with children but no `channel`. -/
theorem aggregate_rss_missing_channel_witness :
    aggregate_rss sampleNow rootNoChannel = Except.error "Missing channel in RSS input." :=
  aggregate_rss_missing_channel sampleNow rootNoChannel (by rfl)

/-! ## C8: placeholders for missing entry fields -/

/-- C8: an entry with no `title` child gets the literal placeholder
`"无标题"`, an entry with no `link` child gets `"#"`, and every entry
of the channel is still mapped into the aggregation list (one pair per
`item` child, so nothing fails or is dropped). -/
theorem extractEntry_placeholders (item channel : XElem) :
    (item.find "title" = none → (extractEntry item).1 = "无标题") ∧
      (item.find "link" = none → (extractEntry item).2 = "#") ∧
      ((channel.findall "item").map extractEntry).length = (channel.findall "item").length := by
  refine ⟨fun h => ?_, fun h => ?_, List.length_map _ _⟩
  · simp [extractEntry, h, get_text, pyOr]
  · simp [extractEntry, h, get_text, pyOr]

/-- Witness for C8 on an `item` with neither child. -/
theorem extractEntry_placeholders_witness :
    (extractEntry bareItem).1 = "无标题" ∧ (extractEntry bareItem).2 = "#" :=
  ⟨(extractEntry_placeholders bareItem bareItem).1 (by rfl),
   (extractEntry_placeholders bareItem bareItem).2.1 (by rfl)⟩

/-! ## C10: whitespace-only entry fields get the same placeholders -/

theorem pyStripL_all_space (l : List Char) (h : ∀ c ∈ l, pyIsSpace c = true) :
    pyStripL l = [] := by
  unfold pyStripL
  rw [List.dropWhile_eq_nil_iff.mpr h]
  simp

/-- C10: if an entry's `title` (resp. `link`) element is present but
its whole text content is whitespace, `get_text` strips it down to the
empty string, so the entry receives the same `"无标题"` (resp. `"#"`)
placeholder as an entry whose element is missing entirely. -/
theorem blank_fields_get_placeholders (item : XElem) :
    (∀ t, item.find "title" = some t → (∀ c ∈ itertextE t, pyIsSpace c = true) →
      get_text (item.find "title") = "" ∧ (extractEntry item).1 = "无标题") ∧
    (∀ l, item.find "link" = some l → (∀ c ∈ itertextE l, pyIsSpace c = true) →
      get_text (item.find "link") = "" ∧ (extractEntry item).2 = "#") := by
  constructor
  · intro t ht hsp
    have hg : get_text (item.find "title") = "" := by
      rw [ht]
      show (⟨pyStripL (itertextE t)⟩ : String) = ""
      rw [pyStripL_all_space _ hsp]
    exact ⟨hg, by simp [extractEntry, hg, pyOr]⟩
  · intro l hl hsp
    have hg : get_text (item.find "link") = "" := by
      rw [hl]
      show (⟨pyStripL (itertextE l)⟩ : String) = ""
      rw [pyStripL_all_space _ hsp]
    exact ⟨hg, by simp [extractEntry, hg, pyOr]⟩

/-- Witness for C10 on an `item` whose `title` text and nested `link`
content are whitespace-only. -/
theorem blank_fields_get_placeholders_witness :
    (extractEntry blankFieldsItem).1 = "无标题" ∧ (extractEntry blankFieldsItem).2 = "#" :=
  ⟨((blank_fields_get_placeholders blankFieldsItem).1 _ (by rfl) (by decide)).2,
   ((blank_fields_get_placeholders blankFieldsItem).2 _ (by rfl) (by decide)).2⟩

/-! ## C1: the output document always has exactly one item -/

/-- C1: for every input document whose root has a `channel` child
(with any number of `item` entries, including zero), `aggregate_rss`
succeeds and the output document's channel contains exactly one `item`
element. -/
theorem aggregate_rss_single_item (now : AwareDT) (root ch : XElem)
    (h : root.find "channel" = some ch) :
    ∃ out, aggregate_rss now root = Except.ok out ∧ itemCount out = 1 := by
  unfold aggregate_rss
  rw [h]
  exact ⟨_, rfl, rfl⟩

/-- Witness for C1 on a document with three entries. -/
theorem aggregate_rss_single_item_witness :
    ∃ out, aggregate_rss sampleNow inputDocThreeItems = Except.ok out ∧ itemCount out = 1 :=
  aggregate_rss_single_item sampleNow inputDocThreeItems _ (by rfl)

/-! ## C2: the actual pubDate at the spec's timestamp example

The spec claims the output `pubDate` is `"Wed, 15 Mar 2023 02:00:00
GMT"`, an exact 8-hour local-to-universal offset.  The code, however,
attaches `BEIJING_TZ` with `datetime.replace`, which for a pytz zone
carries the zone's first (LMT) entry, +08:06 after rounding — not the
modern CST +08:00 the code's own comments (`统一按北京时间理解`,
"interpret uniformly as Beijing time") intend.  The conversion
therefore subtracts 8 h 06 min and the emitted `pubDate` is
`"Wed, 15 Mar 2023 01:54:00 GMT"`. -/

/-- C2 (evaluation at the claimed input): for the input document whose
channel has `lastBuildDate` text `"Wed, 15 Mar 2023 10:00:00 GMT"` and
no items, the single output item's `pubDate` is
`"Wed, 15 Mar 2023 01:54:00 GMT"`, not the `"... 02:00:00 GMT"` the
spec states. -/
theorem aggregate_rss_pubDate_at_claimed_input :
    okPubDate (aggregate_rss sampleNow inputDocNoItems) = some "Wed, 15 Mar 2023 01:54:00 GMT" ∧
      okPubDate (aggregate_rss sampleNow inputDocNoItems) ≠
        some "Wed, 15 Mar 2023 02:00:00 GMT" := by
  constructor
  · rfl
  · intro hcontra
    rw [show okPubDate (aggregate_rss sampleNow inputDocNoItems) =
      some "Wed, 15 Mar 2023 01:54:00 GMT" from rfl] at hcontra
    simp at hcontra

/-! ## C5: link normalisation -/

/-- C5: `normalize_weibo_link` behaves exactly as the spec describes
(whitespace removal, first `q` value with title fallback, full
percent-encoding into the fixed template), it is total, and the two
concrete examples of the spec hold. -/
theorem normalize_weibo_link_spec_conformance :
    (∀ title link, normalize_weibo_link title link = normalize_link_spec title link) ∧
      normalize_weibo_link "ignored" "https://example.com/?q=keywordA" =
        "https://m.weibo.cn/search?containerid=100103type%3D1%26q%3DkeywordA" ∧
      normalize_weibo_link "fallback title" "https://example.com/" =
        "https://m.weibo.cn/search?containerid=100103type%3D1%26q%3Dfallback%20title" := by
  refine ⟨fun title link => ?_, by decide, by decide⟩
  unfold normalize_weibo_link normalize_link_spec
  by_cases hq : parse_qsl (urlQuery (removeAllWs link).data) = []
  · simp [hq, firstQValue, pyStrip, pyStripL]
  · simp [hq]


/-! ## C6: titles are HTML-escaped before insertion -/

theorem pyReplaceChar_nil (o : Char) (n : List Char) : pyReplaceChar o n [] = [] := rfl

theorem pyReplaceChar_cons (o : Char) (n : List Char) (c : Char) (l : List Char) :
    pyReplaceChar o n (c :: l) = (if c = o then n else [c]) ++ pyReplaceChar o n l := by
  simp [pyReplaceChar]

theorem pyReplaceChar_append (o : Char) (n : List Char) (a b : List Char) :
    pyReplaceChar o n (a ++ b) = pyReplaceChar o n a ++ pyReplaceChar o n b := by
  simp [pyReplaceChar]

/-- The five sequential replacements act on each source character
independently: `&` is replaced first, and no later replacement touches
the characters of an already-inserted entity. -/
theorem html_escape_data (s : String) :
    (html_escape s).data = (s.data.map escChar).flatten := by
  show pyReplaceChar aposChar ("&#x27;").data
      (pyReplaceChar '"' ("&quot;").data
        (pyReplaceChar '>' ("&gt;").data
          (pyReplaceChar '<' ("&lt;").data
            (pyReplaceChar '&' ("&amp;").data s.data)))) = (s.data.map escChar).flatten
  generalize s.data = l
  induction l with
  | nil => rfl
  | cons c l ih =>
    rw [pyReplaceChar_cons, pyReplaceChar_append, pyReplaceChar_append, pyReplaceChar_append,
      pyReplaceChar_append, List.map_cons, List.flatten_cons, ih]
    congr 1
    by_cases h1 : c = '&'
    · subst h1; decide
    · by_cases h2 : c = '<'
      · subst h2; decide
      · by_cases h3 : c = '>'
        · subst h3; decide
        · by_cases h4 : c = '"'
          · subst h4; decide
          · by_cases h5 : c = aposChar
            · subst h5; decide
            · simp [escChar, h1, h2, h3, h4, h5, pyReplaceChar_cons, pyReplaceChar_nil]

theorem escapedSafe_escChar_append (c : Char) (r : List Char) (hr : EscapedSafe r) :
    EscapedSafe (escChar c ++ r) := by
  by_cases h1 : c = '&'
  · subst h1
    exact EscapedSafe.amp hr
  · by_cases h2 : c = '<'
    · subst h2
      exact EscapedSafe.lt hr
    · by_cases h3 : c = '>'
      · subst h3
        exact EscapedSafe.gt hr
      · by_cases h4 : c = '"'
        · subst h4
          exact EscapedSafe.quot hr
        · by_cases h5 : c = aposChar
          · subst h5
            exact EscapedSafe.x27 hr
          · have he : escChar c ++ r = c :: r := by
              simp [escChar, h1, h2, h3, h4, h5]
            rw [he]
            exact EscapedSafe.plain h2 h3 h4 h1 hr

theorem escapedSafe_flatten (l : List Char) : EscapedSafe ((l.map escChar).flatten) := by
  induction l with
  | nil => exact EscapedSafe.nil
  | cons c l ih =>
    rw [List.map_cons, List.flatten_cons]
    exact escapedSafe_escChar_append c _ ih

theorem escapedSafe_no_markup {l : List Char} (h : EscapedSafe l) :
    '<' ∉ l ∧ '>' ∉ l ∧ '"' ∉ l := by
  induction h with
  | nil => simp
  | amp _ ih => simp_all [List.mem_cons]
  | lt _ ih => simp_all [List.mem_cons]
  | gt _ ih => simp_all [List.mem_cons]
  | quot _ ih => simp_all [List.mem_cons]
  | x27 _ ih => simp_all [List.mem_cons]
  | plain h2 h3 h4 _ _ ih =>
    refine ⟨?_, ?_, ?_⟩ <;> simp_all [List.mem_cons, eq_comm]

/-- C6: `build_description` renders exactly the described lines, every
`<li>` inserts its title (and its normalised link) only through
`html.escape(·, quote=True)`, and for every string the escaped output
is free of unescaped markup: it contains no raw `<`, `>` or `"`, and
every one of its `&` characters begins one of the five entities the
escaper introduces. -/
theorem build_description_escapes (items : List (String × String)) (ct : AwareDT) :
    build_description items ct = String.intercalate "\n"
        (["<h2>微博热搜榜</h2>", "<ol>"] ++ items.map descLiLine ++
          ["</ol>", "<p><small>采集时间: " ++ strftime_ymd_hms ct.dt ++ "</small></p>"]) ∧
      (∀ p : String × String, descLiLine p =
        "<li><a href=\"" ++ html_escape (normalize_weibo_link p.1 p.2) ++ "\" target=\"_blank\">" ++
          html_escape p.1 ++ "</a></li>") ∧
      (∀ s : String, EscapedSafe (html_escape s).data) ∧
      (∀ s : String, '<' ∉ (html_escape s).data ∧ '>' ∉ (html_escape s).data ∧
        '"' ∉ (html_escape s).data) := by
  refine ⟨rfl, fun _ => rfl, fun s => ?_, fun s => ?_⟩
  · rw [html_escape_data]; exact escapedSafe_flatten _
  · exact escapedSafe_no_markup (by rw [html_escape_data]; exact escapedSafe_flatten _)

/-! ## C3: the timestamp format/re-parse round trip

`aggregate_rss` formats the universal-time component with
`"%a, %d %b %Y %H:%M:%S GMT"`; re-parsing such a string with
`parse_last_build_date` reads its wall-clock fields back as local-zone
time.  The recovered wall-clock fields are those of the **formatted
universal-time** component — not those of the original local-zone
component, which sit one zone offset away. -/

theorem digitVal_digitCh (k : Nat) (h : k ≤ 9) : digitVal (digitCh k) = some k := by
  interval_cases k <;> rfl

theorem digitCh_not_space (k : Nat) (h : k ≤ 9) : pyIsSpace (digitCh k) = false := by
  interval_cases k <;> rfl

theorem daysInMonth_le (y m : Nat) : daysInMonth y m ≤ 31 := by
  unfold daysInMonth
  split
  any_goals omega
  split <;> omega

theorem parseDayTok_pad2 (d : Nat) (h1 : 1 ≤ d) (h2 : d ≤ 31) (rest : List Char) :
    parseDayTok ((pad2 d).data ++ rest) = some (d, rest) := by
  interval_cases d <;> rfl

theorem parseHourTok_pad2 (x : Nat) (h : x ≤ 23) (rest : List Char) :
    parseHourTok ((pad2 x).data ++ rest) = some (x, rest) := by
  interval_cases x <;> rfl

theorem parseMinTok_pad2 (x : Nat) (h : x ≤ 59) (rest : List Char) :
    parseMinTok ((pad2 x).data ++ rest) = some (x, rest) := by
  interval_cases x <;> rfl

theorem parseSecTok_pad2 (x : Nat) (h : x ≤ 59) (rest : List Char) :
    parseSecTok ((pad2 x).data ++ rest) = some (x, rest) := by
  interval_cases x <;> rfl

theorem parseMonthTok_abbr (m : Nat) (h1 : 1 ≤ m) (h2 : m ≤ 12) (rest : List Char) :
    parseMonthTok ((monthAbbr m).data ++ rest) = some (m, rest) := by
  interval_cases m <;> rfl

theorem parseWeekdayTok_abbr (w : Nat) (h : w ≤ 6) (rest : List Char) :
    parseWeekdayTok ((weekdayAbbr w).data ++ rest) = some rest := by
  interval_cases w <;> rfl

theorem matchLit_cons_self (c : Char) (rest : List Char) :
    matchLit c (c :: rest) = some rest := by
  simp [matchLit]

theorem skipWsPlus_space_cons (c : Char) (rest : List Char) (h : pyIsSpace c = false) :
    skipWsPlus (' ' :: c :: rest) = some (c :: rest) := by
  simp [skipWsPlus, List.dropWhile_cons, h, show pyIsSpace ' ' = true from rfl]

theorem parseYear4_pad4 (y : Nat) (h : y ≤ 9999) (rest : List Char) :
    parseYear4 ((pad4 y).data ++ rest) = some (y, rest) := by
  have e1 : digitVal (digitCh (y / 1000 % 10)) = some (y / 1000 % 10) := digitVal_digitCh _ (by omega)
  have e2 : digitVal (digitCh (y / 100 % 10)) = some (y / 100 % 10) := digitVal_digitCh _ (by omega)
  have e3 : digitVal (digitCh (y / 10 % 10)) = some (y / 10 % 10) := digitVal_digitCh _ (by omega)
  have e4 : digitVal (digitCh (y % 10)) = some (y % 10) := digitVal_digitCh _ (by omega)
  show parseYear4 (digitCh (y / 1000 % 10) :: digitCh (y / 100 % 10) :: digitCh (y / 10 % 10) ::
    digitCh (y % 10) :: rest) = some (y, rest)
  simp only [parseYear4, e1, e2, e3, e4, Option.some.injEq, Prod.mk.injEq]
  exact ⟨by omega, trivial⟩

theorem digitCh_never_space (k : Nat) : pyIsSpace (digitCh k) = false := by
  unfold digitCh
  have h : k % 10 < 10 := Nat.mod_lt _ (by omega)
  set j := k % 10 with hj
  interval_cases j <;> rfl

theorem skipWsPlus_pad2 (x : Nat) (r : List Char) :
    skipWsPlus (' ' :: ((pad2 x).data ++ r)) = some ((pad2 x).data ++ r) := by
  show skipWsPlus (' ' :: (digitCh (x / 10 % 10) :: (digitCh (x % 10) :: r))) = _
  exact skipWsPlus_space_cons _ _ (digitCh_never_space _)

theorem skipWsPlus_pad4 (x : Nat) (r : List Char) :
    skipWsPlus (' ' :: ((pad4 x).data ++ r)) = some ((pad4 x).data ++ r) := by
  show skipWsPlus (' ' :: (digitCh (x / 1000 % 10) :: (digitCh (x / 100 % 10) ::
    (digitCh (x / 10 % 10) :: (digitCh (x % 10) :: r))))) = _
  exact skipWsPlus_space_cons _ _ (digitCh_never_space _)

theorem skipWsPlus_month (m : Nat) (h1 : 1 ≤ m) (h2 : m ≤ 12) (r : List Char) :
    skipWsPlus (' ' :: ((monthAbbr m).data ++ r)) = some ((monthAbbr m).data ++ r) := by
  interval_cases m <;> rfl

/-- Printer/parser agreement: `strptime` with the GMT format recovers
exactly the fields that `strftime("%a, %d %b %Y %H:%M:%S GMT")` wrote,
for any valid four-digit-year datetime. -/
theorem strptime_fmt1_strftime (n : Naive) (hy1 : 1000 ≤ n.year) (hy2 : n.year ≤ 9999)
    (hm1 : 1 ≤ n.month) (hm2 : n.month ≤ 12) (hd1 : 1 ≤ n.day)
    (hd2 : n.day ≤ daysInMonth n.year n.month) (hh : n.hour ≤ 23) (hmi : n.minute ≤ 59)
    (hs : n.second ≤ 59) :
    strptime_fmt1 (strftime_rfc822 n).data = some n := by
  have hwd : weekdayIdx n ≤ 6 := by
    have : weekdayIdx n < 7 := Nat.mod_lt _ (by omega)
    omega
  have hd31 : n.day ≤ 31 := le_trans hd2 (daysInMonth_le _ _)
  have hok : datetimeOk n = true := by
    unfold datetimeOk
    exact decide_eq_true ⟨by omega, by omega, hm1, hm2, hd1, hd2, hh, hmi, hs⟩
  unfold strftime_rfc822
  simp only [String.data_append, List.append_assoc]
  unfold strptime_fmt1 strptimeFields
  rw [parseWeekdayTok_abbr _ hwd]
  simp only [obind, List.cons_append, List.nil_append]
  rw [matchLit_cons_self]
  simp only [obind]
  rw [skipWsPlus_pad2]
  simp only [obind]
  rw [parseDayTok_pad2 n.day hd1 hd31]
  simp only [obind]
  rw [skipWsPlus_month n.month hm1 hm2]
  simp only [obind]
  rw [parseMonthTok_abbr n.month hm1 hm2]
  simp only [obind]
  rw [skipWsPlus_pad4]
  simp only [obind]
  rw [parseYear4_pad4 n.year hy2]
  simp only [obind]
  rw [skipWsPlus_pad2]
  simp only [obind]
  rw [parseHourTok_pad2 n.hour hh]
  simp only [obind]
  rw [matchLit_cons_self]
  simp only [obind]
  rw [parseMinTok_pad2 n.minute hmi]
  simp only [obind]
  rw [matchLit_cons_self]
  simp only [obind]
  rw [parseSecTok_pad2 n.second hs]
  simp only [obind]
  rw [show skipWsPlus [' ', 'G', 'M', 'T'] = some ['G', 'M', 'T'] from rfl]
  simp [matchCI, toLowerCh, hok]

theorem pyStripL_eq_self2 (l : List Char) (h1 : l.dropWhile pyIsSpace = l)
    (h2 : l.reverse.dropWhile pyIsSpace = l.reverse) : pyStripL l = l := by
  unfold pyStripL
  rw [h1, h2, List.reverse_reverse]

/-- The formatted timestamp has no leading or trailing whitespace, so
the `strip()` in `parse_last_build_date` leaves it unchanged. -/
theorem pyStrip_strftime (n : Naive) :
    pyStrip (strftime_rfc822 n) = strftime_rfc822 n := by
  have hwd : weekdayIdx n ≤ 6 := by
    have : weekdayIdx n < 7 := Nat.mod_lt _ (by omega)
    omega
  have h1 : (strftime_rfc822 n).data.dropWhile pyIsSpace = (strftime_rfc822 n).data := by
    unfold strftime_rfc822
    simp only [String.data_append, List.append_assoc, List.cons_append, List.nil_append]
    interval_cases h : weekdayIdx n <;> simp [weekdayAbbr, pyIsSpace]
  have h2 : (strftime_rfc822 n).data.reverse.dropWhile pyIsSpace =
      (strftime_rfc822 n).data.reverse := by
    unfold strftime_rfc822
    simp [List.reverse_append, pyIsSpace]
  show (⟨pyStripL (strftime_rfc822 n).data⟩ : String) = strftime_rfc822 n
  rw [pyStripL_eq_self2 _ h1 h2]

theorem strftime_rfc822_ne_empty (n : Naive) : strftime_rfc822 n ≠ "" := by
  intro h
  have h2 : (strftime_rfc822 n).data.length = 0 := by rw [h]; rfl
  unfold strftime_rfc822 at h2
  simp [String.data_append, List.length_append] at h2

/-- C3 (counterexample to the claim as stated): at the spec's own
timestamp input, formatting the universal-time component and
re-parsing it yields wall-clock fields (01:54:00) that differ from the
original local-zone component's fields (10:00:00). -/
theorem timestamp_roundtrip_counterexample :
    (parse_last_build_date
        (strftime_rfc822 (parse_last_build_date "Wed, 15 Mar 2023 10:00:00 GMT" sampleNow).2.dt)
        sampleNow).1.dt ≠
      (parse_last_build_date "Wed, 15 Mar 2023 10:00:00 GMT" sampleNow).1.dt := by
  decide

/-- C3 (amended): formatting a naive datetime with the RFC-822-style
pattern and re-parsing the result with `parse_last_build_date` (which
ignores the GMT marker and reads the fields as local-zone wall time)
yields a local-zone datetime whose wall-clock fields equal those of
the **formatted** component — in particular, re-parsing the formatted
universal-time component recovers the universal-time fields, not the
original local-zone fields. -/
theorem strftime_reparse_recovers_fields (n : Naive) (now : AwareDT)
    (hy1 : 1000 ≤ n.year) (hy2 : n.year ≤ 9999)
    (hm1 : 1 ≤ n.month) (hm2 : n.month ≤ 12) (hd1 : 1 ≤ n.day)
    (hd2 : n.day ≤ daysInMonth n.year n.month) (hh : n.hour ≤ 23) (hmi : n.minute ≤ 59)
    (hs : n.second ≤ 59) :
    (parse_last_build_date (strftime_rfc822 n) now).1.dt = n := by
  have hparse := strptime_fmt1_strftime n hy1 hy2 hm1 hm2 hd1 hd2 hh hmi hs
  unfold parse_last_build_date
  rw [if_neg (strftime_rfc822_ne_empty n)]
  simp only [pyStrip_strftime, hparse]

/-- Witness for the amended C3 at the universal-time component of the
counterexample run. -/
theorem strftime_reparse_recovers_fields_witness :
    (parse_last_build_date (strftime_rfc822 ⟨2023, 3, 15, 1, 54, 0⟩) sampleNow).1.dt =
      ⟨2023, 3, 15, 1, 54, 0⟩ :=
  strftime_reparse_recovers_fields ⟨2023, 3, 15, 1, 54, 0⟩ sampleNow (by decide) (by decide)
    (by decide) (by decide) (by decide) (by decide) (by decide) (by decide) (by decide)
